import Mathlib

/-!
Verification of the Pharaos Runner game-loop engine (src/app/page.tsx).

The per-frame game logic of the page component is embedded shallowly:
JavaScript numbers are modelled as exact rationals (the game only ever
adds, subtracts, multiplies and compares decimal constants, so exact
rational arithmetic mirrors the source expressions term for term; IEEE
rounding is outside the model), React refs and state hooks become fields
of a single `GameState` record, and the `requestAnimationFrame` callback
becomes a pure `step` function parameterised by the value drawn from
`Math.random()` for that frame.  The high-score tracking effect (lines
37-50 of the source) reacts to every score change, so it is applied at
the end of every processed frame.  The `forceUpdate` counter, the React
re-render plumbing and `obstacleCount` (which is never read) have no
effect on game state and are not modelled.
-/

set_option maxRecDepth 4000

/-- The closed set of obstacle categories (line 5 of the source). -/
inductive ObstacleType where
  | rock
  | temple
  | scorpion
  | snake
  | statue
deriving DecidableEq

/-- High-hazard test used by the collision detector (line 216):
`obs.type === "temple" || obs.type === "statue" || obs.type === "snake"`. -/
def ObstacleType.isHigh : ObstacleType → Bool
  | .temple => true
  | .statue => true
  | .snake => true
  | .rock => false
  | .scorpion => false

/-- A live obstacle: horizontal position and category (line 20). -/
structure Obstacle where
  x : ℚ
  type : ObstacleType
deriving DecidableEq

/-- The whole mutable state of the component: React state hooks, refs and
the two loop-local counters (`frameCount`, `lastObstacleFrame`) that are
reinitialised whenever the game-loop effect restarts, i.e. on every game
start.  `store` is the externally persisted high-score value (the single
localStorage slot). -/
structure GameState where
  gameStarted : Bool
  gameOver : Bool
  paused : Bool
  score : ℕ
  highScore : ℤ
  lastHighScore : ℤ
  achievedNewHighScore : Bool
  bgOffset : ℚ
  playerY : ℚ
  velocity : ℚ
  isDucking : Bool
  obstacles : List Obstacle
  frameCount : ℕ
  lastObstacleFrame : ℤ
  store : Option String

/-- Idle component state before any interaction, with nothing stored. -/
def init0 : GameState where
  gameStarted := false
  gameOver := false
  paused := false
  score := 0
  highScore := 0
  lastHighScore := 0
  achievedNewHighScore := false
  bgOffset := 0
  playerY := 0
  velocity := 0
  isDucking := false
  obstacles := []
  frameCount := 0
  lastObstacleFrame := -100
  store := none

/-- `startGame` (lines 53-66), together with the reset of the loop-local
counters `frameCount := 0` and `lastObstacleFrame := -100` performed when
the game-loop effect restarts (lines 152-153). -/
def startGame (s : GameState) : GameState :=
  { s with
    gameStarted := true
    gameOver := false
    paused := false
    score := 0
    achievedNewHighScore := false
    playerY := 0
    velocity := 0
    isDucking := false
    obstacles := []
    frameCount := 0
    lastObstacleFrame := -100 }

/-- `togglePause` (lines 69-74). -/
def togglePause (s : GameState) : GameState :=
  if !s.gameStarted || s.gameOver then s
  else { s with paused := !s.paused }

/-- `jump` (lines 77-87). -/
def jump (s : GameState) : GameState :=
  if !s.gameStarted && !s.gameOver then startGame s
  else if s.gameOver || s.isDucking then s
  else if s.playerY = 0 then { s with velocity := 13 } else s

/-- `setDuck` (lines 90-93). -/
def setDuck (ducking : Bool) (s : GameState) : GameState :=
  if !s.gameStarted || s.gameOver then s
  else { s with isDucking := ducking }

/-- Digit run to a natural number, most significant first. -/
def digitsToNat (ds : List Char) : ℕ :=
  ds.foldl (fun a c => 10 * a + (c.toNat - 48)) 0

/-- JavaScript `parseInt(str)` with the default radix 10: skip leading
whitespace, read an optional sign, then the longest run of decimal
digits; the result is `none` (modelling `NaN`) when no digit is found. -/
def parseIntJS (str : String) : Option ℤ :=
  let cs := str.toList.dropWhile (fun c => c == ' ' || c == '\t' || c == '\n' || c == '\r')
  let sign : ℤ := if cs.head? = some '-' then -1 else 1
  let cs2 := if cs.head? = some '-' || cs.head? = some '+' then cs.tail else cs
  let ds := cs2.takeWhile Char.isDigit
  if ds = [] then none else some (sign * (digitsToNat ds : ℤ))

/-- In-memory high score produced by the startup load effect
(lines 28-35): `localStorage.getItem` returns `none` when the key is
absent; the guard `if (saved)` is falsy exactly for `none` and for the
empty string, in which case the initial value 0 is kept; otherwise the
stored string goes through `parseInt`, whose `NaN` outcome (`none`) is
propagated unchanged into the high-score state. -/
def loadHighScore (saved : Option String) : Option ℤ :=
  match saved with
  | none => some 0
  | some str => if str = "" then some 0 else parseIntJS str

/-- `Math.floor(frameCount / 60)` (line 176). -/
def currentScoreOf (frameCount : ℕ) : ℕ :=
  frameCount / 60

/-- `3.5 + Math.min(currentScore * 0.1, 6)` (line 177). -/
def baseSpeedOf (frameCount : ℕ) : ℚ :=
  3.5 + min ((currentScoreOf frameCount : ℚ) * 0.1) 6

/-- `Math.max(140 - currentScore * 2, 65)` (line 178). -/
def spawnIntervalOf (frameCount : ℕ) : ℤ :=
  max (140 - (currentScoreOf frameCount : ℤ) * 2) 65

/-- Obstacle category drawn from one uniform sample (lines 182-189). -/
def chooseType (rand : ℚ) : ObstacleType :=
  if rand < 0.3 then .rock
  else if rand < 0.5 then .scorpion
  else if rand < 0.7 then .temple
  else if rand < 0.85 then .statue
  else .snake

/-- Physics integration and ground clamp (lines 166-173): gravity is
added to the velocity, the velocity to the position, and a position that
ends at or below the ground resets both to 0.  Returns
(position, velocity). -/
def integrate (playerY velocity : ℚ) : ℚ × ℚ :=
  let velocity := velocity - 0.7
  let playerY := playerY + velocity
  if playerY ≤ 0 then (0, 0) else (playerY, velocity)

/-- Per-obstacle collision test (lines 202-240), evaluated at the
player's post-integration height and current ducking flag. -/
def collides (isDucking : Bool) (playerY : ℚ) (obs : Obstacle) : Bool :=
  let playerX : ℚ := 100
  let playerWidth : ℚ := 35
  let playerHeight : ℚ := if isDucking then 20 else 45
  let playerBottom := playerY
  let playerTop := playerBottom + playerHeight
  let obsWidth : ℚ := 35
  let obsBottom : ℚ := if obs.type.isHigh then 35 else 0
  let obsHeight : ℚ := if obs.type.isHigh then 80 else 40
  let obsTop := obsBottom + obsHeight
  let hitX := decide (obs.x + 3 < playerX + playerWidth - 3) &&
    decide (obs.x + obsWidth - 3 > playerX + 3)
  let hitY := decide (playerBottom + 2 < obsTop - 2) &&
    decide (playerTop - 2 > obsBottom + 2)
  hitX && hitY

/-- The `forEach` accumulation of `hasCollision` (lines 208-241). -/
def collidesAny (isDucking : Bool) (playerY : ℚ) (obstacles : List Obstacle) : Bool :=
  obstacles.any (collides isDucking playerY)

/-- Spawn trigger `frameCount - lastObstacleFrame > spawnInterval`
(line 181), evaluated at the already incremented frame count. -/
def spawnFires (s : GameState) : Bool :=
  decide ((s.frameCount : ℤ) + 1 - s.lastObstacleFrame > spawnIntervalOf (s.frameCount + 1))

/-- Obstacle list after the spawn phase (lines 181-194): on firing, one
new obstacle is pushed at the right boundary x = 800. -/
def spawnedObstacles (rand : ℚ) (s : GameState) : List Obstacle :=
  if spawnFires s then s.obstacles ++ [{ x := 800, type := chooseType rand }]
  else s.obstacles

/-- Obstacle list after the motion phase `x := x - baseSpeed`
(lines 197-198). -/
def movedObstacles (rand : ℚ) (s : GameState) : List Obstacle :=
  (spawnedObstacles rand s).map fun o => { x := o.x - baseSpeedOf (s.frameCount + 1), type := o.type }

/-- Obstacle list after the off-screen filter `x > -100` (line 199). -/
def keptObstacles (rand : ℚ) (s : GameState) : List Obstacle :=
  (movedObstacles rand s).filter fun o => decide (o.x > -100)

/-- JavaScript `a % b` for the non-negative operands used by the
background offset (line 252). -/
def jsMod (a b : ℚ) : ℚ :=
  a - b * ((a / b).floor : ℤ)

/-- The high-score tracking effect (lines 38-50), which reruns after the
score update of each processed frame.  Both `if` conditions read the
state of the render that triggered the effect; the second store write
repeats the value of the first when both fire. -/
def highScoreEffect (s : GameState) : GameState :=
  let s1 :=
    if s.gameStarted = true ∧ s.lastHighScore < (s.score : ℤ) ∧ 100 < s.score then
      { s with
        achievedNewHighScore := true
        highScore := (s.score : ℤ)
        lastHighScore := (s.score : ℤ)
        store := some (toString s.score) }
    else s
  if 0 < s.score ∧ s.highScore < (s.score : ℤ) then
    { s1 with store := some (toString s.score) }
  else s1

/-- One unpaused pass of the `gameLoop` body (lines 163-255) before the
high-score effect: frame counter, physics, spawning, motion, collision,
game-over flag, score increment and background offset. -/
def preEffect (rand : ℚ) (s : GameState) : GameState :=
  { s with
    frameCount := s.frameCount + 1
    playerY := (integrate s.playerY s.velocity).1
    velocity := (integrate s.playerY s.velocity).2
    obstacles := keptObstacles rand s
    lastObstacleFrame :=
      if spawnFires s then (s.frameCount : ℤ) + 1 else s.lastObstacleFrame
    gameOver := collidesAny s.isDucking (integrate s.playerY s.velocity).1 (keptObstacles rand s)
    score := s.score + 1
    bgOffset := jsMod (s.bgOffset + baseSpeedOf (s.frameCount + 1) * 0.3) 800 }

/-- One invocation of the frame callback.  The surrounding effect only
schedules the loop while the game is started and not over (line 150),
and a paused frame re-requests the next tick without touching any state
(lines 158-161). -/
def step (rand : ℚ) (s : GameState) : GameState :=
  if !s.gameStarted || s.gameOver then s
  else if s.paused then s
  else highScoreEffect (preEffect rand s)

/-- A run of consecutive frames fed by a stream of random samples. -/
def steps (rands : List ℚ) (s : GameState) : GameState :=
  rands.foldl (fun t r => step r t) s

/-- Number of frames of a run at which the new-high-score flag rises
from false to true, i.e. at which the one-time celebration event is
emitted. -/
def risingEdges : GameState → List ℚ → ℕ
  | _, [] => 0
  | s, r :: rs =>
    (if s.achievedNewHighScore = false ∧ (step r s).achievedNewHighScore = true then 1 else 0) +
      risingEdges (step r s) rs

/-- Repeated pause cycles: each round toggles pause on, lets some frames
elapse, and toggles pause off again; `2 * rss.length` toggles in all. -/
def pauseCycles : List (List ℚ) → GameState → GameState
  | [], s => s
  | rs :: rest, s => pauseCycles rest (togglePause (steps rs (togglePause s)))

/-- The game loop advances state only in this configuration. -/
abbrev Active (s : GameState) : Prop :=
  s.gameStarted = true ∧ s.gameOver = false ∧ s.paused = false

/-- Horizontal-interval overlap between an obstacle at `x` and the
player, with the detector's inward 3px margins (line 233). -/
def overlapsPlayerX (x : ℚ) : Prop :=
  x + 3 < 100 + 35 - 3 ∧ x + 35 - 3 > 100 + 3

/-- Every live obstacle is of a high category. -/
def allHigh (l : List Obstacle) : Prop :=
  ∀ o ∈ l, o.type.isHigh = true

/-- States of a run played by holding duck from the start: grounded,
motionless, ducking, with only high obstacles alive.  Closed under
`step` whenever the sample drawn spawns a high category. -/
def DuckSafe (s : GameState) : Prop :=
  s.gameStarted = true ∧ s.gameOver = false ∧ s.paused = false ∧
    s.isDucking = true ∧ s.playerY = 0 ∧ s.velocity = 0 ∧ allHigh s.obstacles

/-- A fresh run with duck held from the first frame. -/
def duckRun0 : GameState :=
  setDuck true (startGame init0)

/-- A fresh run with duck held, against a previously stored high score
of 50. -/
def hsRun0 : GameState :=
  setDuck true (startGame { init0 with highScore := 50, lastHighScore := 50, store := some ("50") })

/-- A state whose new-high-score flag is already set. -/
def achState : GameState :=
  { init0 with gameStarted := true, achievedNewHighScore := true }

/-- Trace description of the high-score scenario: after `n` processed
frames of the `hsRun0` run the score is `n`, and the high-score fields
are exactly those the effect has produced: untouched up to score 100
(the store mirrors every score beyond the stored 50), and from score 101
on the flag is up and both high-score values track the score. -/
def HsInv (n : ℕ) (s : GameState) : Prop :=
  DuckSafe s ∧ s.score = n ∧
    (n ≤ 100 →
      s.achievedNewHighScore = false ∧ s.highScore = 50 ∧ s.lastHighScore = 50 ∧
        s.store = some (if n ≤ 50 then ("50") else toString n)) ∧
    (100 < n →
      s.achievedNewHighScore = true ∧ s.highScore = (n : ℤ) ∧ s.lastHighScore = (n : ℤ) ∧
        s.store = some (toString n))

/-! ### Helper lemmas -/

theorem hse_preserve (s : GameState) :
    (highScoreEffect s).gameStarted = s.gameStarted ∧
    (highScoreEffect s).gameOver = s.gameOver ∧
    (highScoreEffect s).paused = s.paused ∧
    (highScoreEffect s).score = s.score ∧
    (highScoreEffect s).playerY = s.playerY ∧
    (highScoreEffect s).velocity = s.velocity ∧
    (highScoreEffect s).isDucking = s.isDucking ∧
    (highScoreEffect s).obstacles = s.obstacles ∧
    (highScoreEffect s).frameCount = s.frameCount ∧
    (highScoreEffect s).lastObstacleFrame = s.lastObstacleFrame := by
  unfold highScoreEffect
  split <;> split <;> simp

theorem step_active (r : ℚ) (s : GameState) (h : Active s) :
    step r s = highScoreEffect (preEffect r s) := by
  obtain ⟨h1, h2, h3⟩ := h
  unfold step
  rw [h1, h2, h3]
  rfl

theorem step_paused (r : ℚ) (s : GameState) (h : s.paused = true) : step r s = s := by
  unfold step
  rw [h]
  split <;> rfl

theorem steps_cons (r : ℚ) (rs : List ℚ) (s : GameState) :
    steps (r :: rs) s = steps rs (step r s) := rfl

theorem steps_paused (rs : List ℚ) (s : GameState) (h : s.paused = true) : steps rs s = s := by
  induction rs with
  | nil => rfl
  | cons r rs ih => rw [steps_cons, step_paused r s h, ih]

theorem integrate_eq (y v : ℚ) :
    integrate y v =
      if y + (v - 0.7) ≤ 0 then (0, 0) else (y + (v - 0.7), v - 0.7) := rfl

theorem integrate_zero : integrate 0 0 = (0, 0) := by
  rw [integrate_eq, if_pos (by norm_num : (0:ℚ) + (0 - 0.7) ≤ 0)]

theorem integrate_fst_nonneg (y v : ℚ) : 0 ≤ (integrate y v).1 := by
  rw [integrate_eq]
  split
  · norm_num
  · next h => simp; linarith [not_le.mp h]

theorem integrate_ground (y v : ℚ) (h : (integrate y v).1 = 0) : (integrate y v).2 = 0 := by
  rw [integrate_eq] at h ⊢
  split at h
  · simp_all
  · next hgt =>
    simp at h
    exact absurd h (by intro he; exact absurd (he ▸ not_le.mp hgt) (by norm_num))

theorem collides_highDuckGround (o : Obstacle) (h : o.type.isHigh = true) :
    collides true 0 o = false := by
  simp [collides, h]
  norm_num

theorem collides_lowGroundStand (o : Obstacle) (hlow : o.type.isHigh = false)
    (hx : overlapsPlayerX o.x) : collides false 0 o = true := by
  obtain ⟨hx1, hx2⟩ := hx
  simp [collides, hlow, overlapsPlayerX] at *
  refine ⟨⟨hx1, hx2⟩, by norm_num⟩

theorem collides_lowCleared (d : Bool) (y : ℚ) (o : Obstacle) (hlow : o.type.isHigh = false)
    (hy : 40 < y) : collides d y o = false := by
  simp [collides, hlow]
  intro _ _ h2
  linarith

theorem collides_highStand (y : ℚ) (o : Obstacle) (hhigh : o.type.isHigh = true)
    (hx : overlapsPlayerX o.x) (hy0 : 0 ≤ y) (hy35 : y < 35) : collides false y o = true := by
  obtain ⟨hx1, hx2⟩ := hx
  simp [collides, hhigh, overlapsPlayerX] at *
  refine ⟨⟨hx1, hx2⟩, by constructor <;> linarith⟩

theorem allHigh_kept (r : ℚ) (s : GameState) (hr : (chooseType r).isHigh = true)
    (h : allHigh s.obstacles) : allHigh (keptObstacles r s) := by
  intro o ho
  have hm : o ∈ movedObstacles r s := List.mem_of_mem_filter ho
  obtain ⟨o0, ho0, rfl⟩ := List.mem_map.mp hm
  unfold spawnedObstacles at ho0
  split at ho0
  · rcases List.mem_append.mp ho0 with h1 | h1
    · exact h o0 h1
    · simp at h1
      rw [h1]
      exact hr
  · exact h o0 ho0

theorem collidesAny_eq_false (d : Bool) (y : ℚ) (l : List Obstacle)
    (h : ∀ o ∈ l, collides d y o = false) : collidesAny d y l = false := by
  unfold collidesAny
  rw [List.any_eq_false]
  intro o ho
  simp [h o ho]

theorem duckSafe_step (r : ℚ) (s : GameState) (hr : (chooseType r).isHigh = true)
    (h : DuckSafe s) :
    DuckSafe (step r s) ∧ (step r s).score = s.score + 1 ∧
      (step r s).obstacles = keptObstacles r s := by
  obtain ⟨h1, h2, h3, h4, h5, h6, h7⟩ := h
  have hA : Active s := ⟨h1, h2, h3⟩
  have hall : allHigh (keptObstacles r s) := allHigh_kept r s hr h7
  have hnc : collidesAny s.isDucking (integrate s.playerY s.velocity).1 (keptObstacles r s) = false := by
    rw [h4, h5, h6, integrate_zero]
    exact collidesAny_eq_false true 0 _ (fun o ho => collides_highDuckGround o (hall o ho))
  rw [step_active r s hA]
  obtain ⟨e1, e2, e3, e4, e5, e6, e7, e8, e9, e10⟩ := hse_preserve (preEffect r s)
  refine ⟨⟨?_, ?_, ?_, ?_, ?_, ?_, ?_⟩, ?_, ?_⟩
  · rw [e1]; exact h1
  · rw [e2]
    show collidesAny s.isDucking (integrate s.playerY s.velocity).1 (keptObstacles r s) = false
    exact hnc
  · rw [e3]; exact h3
  · rw [e7]; exact h4
  · rw [e5]
    show (integrate s.playerY s.velocity).1 = 0
    rw [h5, h6, integrate_zero]
  · rw [e6]
    show (integrate s.playerY s.velocity).2 = 0
    rw [h5, h6, integrate_zero]
  · rw [e8]
    exact hall
  · rw [e4]; rfl
  · rw [e8]; rfl

theorem duckSafe_steps (rs : List ℚ) (s : GameState)
    (hr : ∀ r ∈ rs, (chooseType r).isHigh = true) (h : DuckSafe s) :
    DuckSafe (steps rs s) ∧ (steps rs s).score = s.score + rs.length := by
  induction rs generalizing s with
  | nil => exact ⟨h, rfl⟩
  | cons r rs ih =>
    obtain ⟨hd, hsc, _⟩ := duckSafe_step r s (hr r (List.mem_cons_self r rs)) h
    obtain ⟨ihd, ihsc⟩ := ih (step r s) (fun q hq => hr q (List.mem_cons_of_mem r hq)) hd
    refine ⟨by rwa [steps_cons], ?_⟩
    rw [steps_cons, ihsc, hsc, List.length_cons]
    omega

theorem chooseType_snake : (chooseType 0.9).isHigh = true := by
  norm_num [chooseType, ObstacleType.isHigh]

theorem duckSafe_duckRun0 : DuckSafe duckRun0 := by
  refine ⟨rfl, rfl, rfl, rfl, rfl, rfl, ?_⟩
  intro o ho
  simp [duckRun0, setDuck, startGame, init0] at ho

theorem step_score_succ (r : ℚ) (s : GameState) (h : Active s) :
    (step r s).score = s.score + 1 := by
  rw [step_active r s h]
  rw [(hse_preserve (preEffect r s)).2.2.2.1]
  rfl

theorem step_score_mono (r : ℚ) (s : GameState) : s.score ≤ (step r s).score := by
  unfold step
  split
  · exact le_rfl
  · split
    · exact le_rfl
    · rw [(hse_preserve (preEffect r s)).2.2.2.1]
      exact Nat.le_succ _

theorem steps_score_mono (rs : List ℚ) (s : GameState) : s.score ≤ (steps rs s).score := by
  induction rs generalizing s with
  | nil => exact le_rfl
  | cons r rs ih => exact le_trans (step_score_mono r s) (by rw [steps_cons]; exact ih (step r s))

theorem hse_fire (s : GameState)
    (hc : s.gameStarted = true ∧ s.lastHighScore < (s.score : ℤ) ∧ 100 < s.score) :
    highScoreEffect s =
      { s with
        achievedNewHighScore := true
        highScore := (s.score : ℤ)
        lastHighScore := (s.score : ℤ)
        store := some (toString s.score) } := by
  unfold highScoreEffect
  rw [if_pos hc]
  split <;> rfl

theorem hse_storeOnly (s : GameState)
    (hc : ¬ (s.gameStarted = true ∧ s.lastHighScore < (s.score : ℤ) ∧ 100 < s.score))
    (hc2 : 0 < s.score ∧ s.highScore < (s.score : ℤ)) :
    highScoreEffect s = { s with store := some (toString s.score) } := by
  unfold highScoreEffect
  rw [if_neg hc, if_pos hc2]

theorem hse_idle (s : GameState)
    (hc : ¬ (s.gameStarted = true ∧ s.lastHighScore < (s.score : ℤ) ∧ 100 < s.score))
    (hc2 : ¬ (0 < s.score ∧ s.highScore < (s.score : ℤ))) :
    highScoreEffect s = s := by
  unfold highScoreEffect
  rw [if_neg hc, if_neg hc2]

theorem hse_achieved_mono (s : GameState) (h : s.achievedNewHighScore = true) :
    (highScoreEffect s).achievedNewHighScore = true := by
  unfold highScoreEffect
  split <;> split <;> simp_all

theorem hsInv_step (r : ℚ) (n : ℕ) (s : GameState) (hr : (chooseType r).isHigh = true)
    (h : HsInv n s) : HsInv (n + 1) (step r s) := by
  obtain ⟨hd, hsc, hlow, hhigh⟩ := h
  have hA : Active s := ⟨hd.1, hd.2.1, hd.2.2.1⟩
  obtain ⟨hd2, hsc2, _⟩ := duckSafe_step r s hr hd
  have hstep : step r s = highScoreEffect (preEffect r s) := step_active r s hA
  have hPscore : (preEffect r s).score = n + 1 := by
    show s.score + 1 = n + 1
    rw [hsc]
  have hPstarted : (preEffect r s).gameStarted = true := hd.1
  have hPlast : (preEffect r s).lastHighScore = s.lastHighScore := rfl
  have hPhigh : (preEffect r s).highScore = s.highScore := rfl
  have hPstore : (preEffect r s).store = s.store := rfl
  refine ⟨hd2, by rw [hsc2, hsc], ?_, ?_⟩
  · intro hle
    obtain ⟨ha, hh, hl, hst⟩ := hlow (by omega)
    have hc1 : ¬ ((preEffect r s).gameStarted = true ∧
        (preEffect r s).lastHighScore < ((preEffect r s).score : ℤ) ∧
          100 < (preEffect r s).score) := by
      rw [hPscore]
      intro hc
      exact absurd hc.2.2 (by omega)
    by_cases h50 : n + 1 ≤ 50
    · have hc2 : ¬ (0 < (preEffect r s).score ∧
          (preEffect r s).highScore < ((preEffect r s).score : ℤ)) := by
        rw [hPscore, hPhigh, hh]
        intro hc
        have h2 := hc.2
        omega
      rw [hstep, hse_idle _ hc1 hc2]
      refine ⟨ha, hh, hl, ?_⟩
      show s.store = _
      rw [hst, if_pos (by omega : n ≤ 50), if_pos h50]
    · have hc2 : (0 < (preEffect r s).score ∧
          (preEffect r s).highScore < ((preEffect r s).score : ℤ)) := by
        rw [hPscore, hPhigh, hh]
        refine ⟨by omega, by push_cast; omega⟩
      rw [hstep, hse_storeOnly _ hc1 hc2]
      refine ⟨ha, hh, hl, ?_⟩
      show some (toString (preEffect r s).score) = _
      rw [hPscore, if_neg h50]
  · intro hgt
    have hlast : s.lastHighScore < ((n + 1 : ℕ) : ℤ) := by
      by_cases hn : n ≤ 100
      · rw [(hlow hn).2.2.1]; push_cast; omega
      · rw [(hhigh (by omega)).2.2.1]; push_cast; omega
    have hc1 : (preEffect r s).gameStarted = true ∧
        (preEffect r s).lastHighScore < ((preEffect r s).score : ℤ) ∧
          100 < (preEffect r s).score := by
      refine ⟨hPstarted, ?_, ?_⟩
      · rw [hPscore, hPlast]; exact hlast
      · rw [hPscore]; omega
    rw [hstep, hse_fire _ hc1]
    refine ⟨rfl, ?_, ?_, ?_⟩ <;> rw [hPscore]

theorem hsInv_steps (rs : List ℚ) (n : ℕ) (s : GameState)
    (hr : ∀ r ∈ rs, (chooseType r).isHigh = true) (h : HsInv n s) :
    HsInv (n + rs.length) (steps rs s) := by
  induction rs generalizing n s with
  | nil => exact h
  | cons r rs ih =>
    rw [steps_cons, List.length_cons]
    have h1 := hsInv_step r n s (hr r (List.mem_cons_self r rs)) h
    have h2 := ih (n + 1) (step r s) (fun q hq => hr q (List.mem_cons_of_mem r hq)) h1
    have : n + 1 + rs.length = n + (rs.length + 1) := by omega
    rwa [this] at h2

theorem hsInv_base : HsInv 0 hsRun0 := by
  refine ⟨⟨rfl, rfl, rfl, rfl, rfl, rfl, ?_⟩, rfl, ?_, ?_⟩
  · intro o ho
    simp [hsRun0, setDuck, startGame, init0] at ho
  · intro _
    exact ⟨rfl, rfl, rfl, rfl⟩
  · intro hc
    exact absurd hc (by omega)

theorem hsInv_achieved (n : ℕ) (s : GameState) (h : HsInv n s) :
    s.achievedNewHighScore = (if n ≤ 100 then false else true) := by
  obtain ⟨_, _, hlow, hhigh⟩ := h
  by_cases hn : n ≤ 100
  · rw [if_pos hn]; exact (hlow hn).1
  · rw [if_neg hn]; exact (hhigh (by omega)).1

theorem hsInv_risingEdges (rs : List ℚ) (n : ℕ) (s : GameState)
    (hr : ∀ r ∈ rs, (chooseType r).isHigh = true) (h : HsInv n s) :
    risingEdges s rs = if n ≤ 100 ∧ 100 < n + rs.length then 1 else 0 := by
  induction rs generalizing n s with
  | nil =>
    unfold risingEdges
    rw [List.length_nil, if_neg (by omega : ¬ (n ≤ 100 ∧ 100 < n + 0))]
  | cons r rs ih =>
    have h1 := hsInv_step r n s (hr r (List.mem_cons_self r rs)) h
    have ha0 := hsInv_achieved n s h
    have ha1 := hsInv_achieved (n + 1) (step r s) h1
    have htail := ih (n + 1) (step r s) (fun q hq => hr q (List.mem_cons_of_mem r hq)) h1
    unfold risingEdges
    rw [htail, List.length_cons]
    by_cases hn1 : n ≤ 99
    · rw [ha0, if_pos (by omega : n ≤ 100)] at *
      rw [ha1, if_pos (by omega : n + 1 ≤ 100)]
      simp only [Bool.false_eq_true, and_false, if_false, Nat.zero_add]
      split_ifs <;> omega
    · by_cases hn2 : n = 100
      · subst hn2
        rw [ha0, if_pos (by omega : (100:ℕ) ≤ 100)]
        rw [ha1, if_neg (by omega : ¬ (100 + 1 ≤ 100))]
        simp only [and_self, if_true]
        split_ifs <;> omega
      · rw [ha0, if_neg (by omega : ¬ (n ≤ 100))]
        simp only [Bool.true_eq_false, false_and, if_false, Nat.zero_add]
        split_ifs <;> omega

theorem togglePause_on (s : GameState) (h1 : s.gameStarted = true) (h2 : s.gameOver = false) :
    togglePause s = { s with paused := !s.paused } := by
  unfold togglePause
  rw [h1, h2]
  rfl

theorem set_paused_false_eq (s : GameState) (h : s.paused = false) :
    { s with paused := false } = s := by
  cases s
  simp_all

theorem pauseCycle_one (rs : List ℚ) (s : GameState) (h1 : s.gameStarted = true)
    (h2 : s.gameOver = false) (h3 : s.paused = false) :
    togglePause (steps rs (togglePause s)) = s := by
  have e1 : togglePause s = { s with paused := true } := by
    rw [togglePause_on s h1 h2, h3]
    rfl
  have e2 : steps rs { s with paused := true } = { s with paused := true } :=
    steps_paused rs _ rfl
  rw [e1, e2, togglePause_on { s with paused := true } h1 h2]
  show { s with paused := false } = s
  exact set_paused_false_eq s h3

theorem pauseCycles_id (rss : List (List ℚ)) (s : GameState) (h1 : s.gameStarted = true)
    (h2 : s.gameOver = false) (h3 : s.paused = false) : pauseCycles rss s = s := by
  induction rss with
  | nil => rfl
  | cons rs rest ih =>
    unfold pauseCycles
    rw [pauseCycle_one rs s h1 h2 h3]
    exact ih

theorem baseSpeedOf_mono (f1 f2 : ℕ) (h : f1 ≤ f2) : baseSpeedOf f1 ≤ baseSpeedOf f2 := by
  unfold baseSpeedOf currentScoreOf
  have hc : (f1 / 60 : ℕ) ≤ f2 / 60 := Nat.div_le_div_right h
  have hm : ((f1 / 60 : ℕ) : ℚ) * 0.1 ≤ ((f2 / 60 : ℕ) : ℚ) * 0.1 := by
    apply mul_le_mul_of_nonneg_right _ (by norm_num)
    exact_mod_cast hc
  exact add_le_add_left (min_le_min hm le_rfl) _

theorem baseSpeedOf_le (f : ℕ) : baseSpeedOf f ≤ 9.5 := by
  unfold baseSpeedOf
  have hm := min_le_right ((currentScoreOf f : ℚ) * 0.1) 6
  linarith

theorem spawnIntervalOf_anti (f1 f2 : ℕ) (h : f1 ≤ f2) :
    spawnIntervalOf f2 ≤ spawnIntervalOf f1 := by
  unfold spawnIntervalOf currentScoreOf
  have hc : (f1 / 60 : ℕ) ≤ f2 / 60 := Nat.div_le_div_right h
  apply max_le_max _ le_rfl
  omega

theorem spawnIntervalOf_ge (f : ℕ) : 65 ≤ spawnIntervalOf f :=
  le_max_right _ _

theorem step_obstacles (r : ℚ) (s : GameState) (h : Active s) :
    (step r s).obstacles = keptObstacles r s := by
  rw [step_active r s h, (hse_preserve (preEffect r s)).2.2.2.2.2.2.2.1]
  rfl

theorem step_playerY (r : ℚ) (s : GameState) (h : Active s) :
    (step r s).playerY = (integrate s.playerY s.velocity).1 := by
  rw [step_active r s h, (hse_preserve (preEffect r s)).2.2.2.2.1]
  rfl

theorem step_velocity (r : ℚ) (s : GameState) (h : Active s) :
    (step r s).velocity = (integrate s.playerY s.velocity).2 := by
  rw [step_active r s h, (hse_preserve (preEffect r s)).2.2.2.2.2.1]
  rfl

theorem step_gameOver (r : ℚ) (s : GameState) (h : Active s) :
    (step r s).gameOver =
      collidesAny s.isDucking (integrate s.playerY s.velocity).1 (keptObstacles r s) := by
  rw [step_active r s h, (hse_preserve (preEffect r s)).2.1]
  rfl

theorem step_lastObstacleFrame (r : ℚ) (s : GameState) (h : Active s) :
    (step r s).lastObstacleFrame =
      if spawnFires s then (s.frameCount : ℤ) + 1 else s.lastObstacleFrame := by
  rw [step_active r s h, (hse_preserve (preEffect r s)).2.2.2.2.2.2.2.2.2]
  rfl

theorem step_gameOver_iff (r : ℚ) (s : GameState) (h : Active s) :
    ((step r s).gameOver = true ↔
      ∃ o ∈ (step r s).obstacles, collides s.isDucking ((step r s).playerY) o = true) := by
  rw [step_gameOver r s h, step_obstacles r s h, step_playerY r s h]
  unfold collidesAny
  simp [List.any_eq_true]

theorem kept_mem_bound (r : ℚ) (s : GameState) (o : Obstacle) (ho : o ∈ keptObstacles r s) :
    -100 < o.x := by
  have := (List.mem_filter.mp ho).2
  simpa using of_decide_eq_true this

theorem kept_sublist (r : ℚ) (s : GameState) :
    List.Sublist (keptObstacles r s) (movedObstacles r s) :=
  List.filter_sublist _

theorem chooseType_partition (q : ℚ) (_h0 : 0 ≤ q) (h1 : q < 1) :
    (chooseType q = ObstacleType.rock ↔ q < 0.3) ∧
    (chooseType q = ObstacleType.scorpion ↔ 0.3 ≤ q ∧ q < 0.5) ∧
    (chooseType q = ObstacleType.temple ↔ 0.5 ≤ q ∧ q < 0.7) ∧
    (chooseType q = ObstacleType.statue ↔ 0.7 ≤ q ∧ q < 0.85) ∧
    (chooseType q = ObstacleType.snake ↔ 0.85 ≤ q) := by
  unfold chooseType
  split_ifs with a b c d <;>
    refine ⟨?_, ?_, ?_, ?_, ?_⟩ <;>
    simp_all <;>
    first
      | linarith
      | (intro x; linarith)

theorem step_achieved_mono (r : ℚ) (s : GameState) (h : s.achievedNewHighScore = true) :
    (step r s).achievedNewHighScore = true := by
  unfold step
  split
  · exact h
  · split
    · exact h
    · exact hse_achieved_mono (preEffect r s) h

/-! ### Claims -/

/-- Claim C1 (amended): the step raises game-over exactly when some live
obstacle's box intersects the player's box; a low obstacle at
overlapping x hits a standing grounded player; any player above a low
obstacle's top edge is safe from it; a high obstacle misses a player
ducking on the ground; and a high obstacle at overlapping x hits a
non-ducking player anywhere below its bottom edge.  (The original
claim's duck clause, stated for every ducking player, is amended to
ground-level ducking: an airborne ducking player can still hit a high
obstacle, see the counterexample.) -/
theorem claim_C1 :
    (∀ (r : ℚ) (s : GameState), Active s →
      ((step r s).gameOver = true ↔
        ∃ o ∈ (step r s).obstacles, collides s.isDucking ((step r s).playerY) o = true)) ∧
    (∀ o : Obstacle, o.type.isHigh = false → overlapsPlayerX o.x → collides false 0 o = true) ∧
    (∀ (d : Bool) (y : ℚ) (o : Obstacle), o.type.isHigh = false → 40 < y →
      collides d y o = false) ∧
    (∀ o : Obstacle, o.type.isHigh = true → collides true 0 o = false) ∧
    (∀ (y : ℚ) (o : Obstacle), o.type.isHigh = true → overlapsPlayerX o.x → 0 ≤ y → y < 35 →
      collides false y o = true) :=
  ⟨step_gameOver_iff, collides_lowGroundStand, collides_lowCleared, collides_highDuckGround,
    collides_highStand⟩

/-- Claim C1 witness: a rock at x = 100 hits a standing grounded player. -/
theorem claim_C1_witness : collides false 0 { x := 100, type := ObstacleType.rock } = true :=
  claim_C1.2.1 { x := 100, type := ObstacleType.rock } rfl ⟨by norm_num, by norm_num⟩

/-- Claim C1 counterexample: a ducking player at height 30 does collide
with a high obstacle (temple) at overlapping x, so ducking alone does
not protect from high obstacles. -/
theorem claim_C1_cex :
    ObstacleType.isHigh ObstacleType.temple = true ∧
    collides true 30 { x := 100, type := ObstacleType.temple } = true := by
  refine ⟨rfl, ?_⟩
  simp [collides, ObstacleType.isHigh]
  norm_num

/-- Claim C2: every active unpaused step increments the score by exactly
one; a run's score never decreases; and a fresh run played by holding
duck for 650 frames (all spawns high) ends with gameOver = false and
score = 650. -/
theorem claim_C2 :
    (∀ (r : ℚ) (s : GameState), Active s → (step r s).score = s.score + 1) ∧
    (∀ (rs : List ℚ) (s : GameState), s.score ≤ (steps rs s).score) ∧
    (steps (List.replicate 650 0.9) duckRun0).gameOver = false ∧
    (steps (List.replicate 650 0.9) duckRun0).score = 650 := by
  have hall : ∀ r ∈ List.replicate 650 (0.9:ℚ), (chooseType r).isHigh = true := by
    intro r hr
    rw [List.eq_of_mem_replicate hr]
    exact chooseType_snake
  obtain ⟨hd, hsc⟩ := duckSafe_steps (List.replicate 650 0.9) duckRun0 hall duckSafe_duckRun0
  refine ⟨step_score_succ, steps_score_mono, hd.2.1, ?_⟩
  rw [hsc, List.length_replicate]
  rfl

/-- Claim C2 witness: one concrete active step increments the score. -/
theorem claim_C2_witness : (step 0.9 duckRun0).score = duckRun0.score + 1 :=
  claim_C2.1 0.9 duckRun0 ⟨rfl, rfl, rfl⟩

/-- Claim C3: each active frame integrates gravity into the velocity,
then the velocity into the position, clamping both to 0 at or below the
ground; afterwards the position is never negative and the velocity is 0
whenever the position is 0. -/
theorem claim_C3 : ∀ (r : ℚ) (s : GameState), Active s →
    (step r s).playerY = (integrate s.playerY s.velocity).1 ∧
    (step r s).velocity = (integrate s.playerY s.velocity).2 ∧
    integrate s.playerY s.velocity =
      (if s.playerY + (s.velocity - 0.7) ≤ 0 then (0, 0)
       else (s.playerY + (s.velocity - 0.7), s.velocity - 0.7)) ∧
    0 ≤ (step r s).playerY ∧
    ((step r s).playerY = 0 → (step r s).velocity = 0) := by
  intro r s h
  refine ⟨step_playerY r s h, step_velocity r s h, integrate_eq _ _, ?_, ?_⟩
  · rw [step_playerY r s h]
    exact integrate_fst_nonneg _ _
  · intro h0
    rw [step_velocity r s h]
    apply integrate_ground
    rw [← step_playerY r s h]
    exact h0

/-- Claim C3 witness: the invariants at one concrete step. -/
theorem claim_C3_witness : 0 ≤ (step 0 duckRun0).playerY :=
  (claim_C3 0 duckRun0 ⟨rfl, rfl, rfl⟩).2.2.2.1

/-- Claim C4: the new-high-score flag never falls back within a run (so
the celebration event cannot fire twice); in the scenario run against a
stored high score of 50, exactly one rising edge of the flag occurs over
600 frames, the store ends at "600", and the displayed score is 60. -/
theorem claim_C4 :
    (∀ (r : ℚ) (s : GameState), s.achievedNewHighScore = true →
      (step r s).achievedNewHighScore = true) ∧
    risingEdges hsRun0 (List.replicate 600 0.9) = 1 ∧
    (steps (List.replicate 600 0.9) hsRun0).store = some ("600") ∧
    (steps (List.replicate 600 0.9) hsRun0).score / 10 = 60 := by
  have hall : ∀ r ∈ List.replicate 600 (0.9:ℚ), (chooseType r).isHigh = true := by
    intro r hr
    rw [List.eq_of_mem_replicate hr]
    exact chooseType_snake
  have hfin := hsInv_steps (List.replicate 600 0.9) 0 hsRun0 hall hsInv_base
  rw [List.length_replicate] at hfin
  have hedges := hsInv_risingEdges (List.replicate 600 0.9) 0 hsRun0 hall hsInv_base
  rw [List.length_replicate] at hedges
  refine ⟨step_achieved_mono, ?_, ?_, ?_⟩
  · rw [hedges, if_pos (by omega : (0:ℕ) ≤ 100 ∧ 100 < 0 + 600)]
  · rw [(hfin.2.2.2 (by omega : 100 < 0 + 600)).2.2.2]
    rfl
  · rw [hfin.2.1]

/-- Claim C4 witness: the flag stays up across one concrete step. -/
theorem claim_C4_witness : (step 0 achState).achievedNewHighScore = true :=
  claim_C4.1 0 achState rfl

/-- Claim C5: a paused step is the identity on the whole engine state
(it only re-requests the next tick), and any number of
toggle/paused-frames/toggle rounds returns an active unpaused engine to
exactly its pre-toggle state. -/
theorem claim_C5 :
    (∀ (r : ℚ) (s : GameState), s.paused = true → step r s = s) ∧
    (∀ (s : GameState) (rss : List (List ℚ)), s.gameStarted = true → s.gameOver = false →
      s.paused = false → pauseCycles rss s = s) :=
  ⟨step_paused, fun s rss h1 h2 h3 => pauseCycles_id rss s h1 h2 h3⟩

/-- Claim C5 witness: one full pause round at a concrete state. -/
theorem claim_C5_witness : pauseCycles [[0.2, 0.9]] duckRun0 = duckRun0 :=
  claim_C5.2 duckRun0 [[0.2, 0.9]] rfl rfl rfl

/-- Claim C6: the difficulty schedule is monotone in elapsed frames —
speed non-decreasing, spawn interval non-increasing — with speed capped
at 3.5 + 6 = 9.5 and interval floored at 65. -/
theorem claim_C6 :
    (∀ f1 f2 : ℕ, f1 ≤ f2 →
      baseSpeedOf f1 ≤ baseSpeedOf f2 ∧ spawnIntervalOf f2 ≤ spawnIntervalOf f1) ∧
    (∀ f : ℕ, baseSpeedOf f ≤ 9.5 ∧ 65 ≤ spawnIntervalOf f) :=
  ⟨fun f1 f2 h => ⟨baseSpeedOf_mono f1 f2 h, spawnIntervalOf_anti f1 f2 h⟩,
    fun f => ⟨baseSpeedOf_le f, spawnIntervalOf_ge f⟩⟩

/-- Claim C6 witness: monotonicity at a concrete pair of frame counts. -/
theorem claim_C6_witness : baseSpeedOf 0 ≤ baseSpeedOf 3600 :=
  (claim_C6.1 0 3600 (by omega)).1

/-- Claim C7: each active frame the live obstacles are exactly the
spawned list shifted left by the current speed and filtered at the
off-screen cutoff -100; hence every surviving obstacle sits strictly
right of the cutoff, and the surviving list is a sublist (order
preserved) of the shifted list. -/
theorem claim_C7 : ∀ (r : ℚ) (s : GameState), Active s →
    (step r s).obstacles = (movedObstacles r s).filter (fun o => decide (o.x > -100)) ∧
    movedObstacles r s = (spawnedObstacles r s).map
      (fun o => { x := o.x - baseSpeedOf (s.frameCount + 1), type := o.type }) ∧
    (∀ o ∈ (step r s).obstacles, -100 < o.x) ∧
    List.Sublist ((step r s).obstacles) (movedObstacles r s) := by
  intro r s h
  refine ⟨step_obstacles r s h, rfl, ?_, ?_⟩
  · intro o ho
    rw [step_obstacles r s h] at ho
    exact kept_mem_bound r s o ho
  · rw [step_obstacles r s h]
    exact kept_sublist r s

/-- Claim C7 witness: order preservation at a concrete step. -/
theorem claim_C7_witness :
    List.Sublist ((step 0.9 duckRun0).obstacles) (movedObstacles 0.9 duckRun0) :=
  (claim_C7 0.9 duckRun0 ⟨rfl, rfl, rfl⟩).2.2.2

/-- Claim C8: the spawner fires exactly when the frame count minus the
last spawn frame exceeds the current interval; the five category
thresholds partition [0,1) exhaustively; on firing one obstacle is
appended at x = 800 and the firing frame is recorded, otherwise both are
left unchanged. -/
theorem claim_C8 :
    (∀ q : ℚ, 0 ≤ q → q < 1 →
      (chooseType q = ObstacleType.rock ↔ q < 0.3) ∧
      (chooseType q = ObstacleType.scorpion ↔ 0.3 ≤ q ∧ q < 0.5) ∧
      (chooseType q = ObstacleType.temple ↔ 0.5 ≤ q ∧ q < 0.7) ∧
      (chooseType q = ObstacleType.statue ↔ 0.7 ≤ q ∧ q < 0.85) ∧
      (chooseType q = ObstacleType.snake ↔ 0.85 ≤ q)) ∧
    (∀ (r : ℚ) (s : GameState), Active s →
      (spawnFires s = true ↔
        (s.frameCount : ℤ) + 1 - s.lastObstacleFrame > spawnIntervalOf (s.frameCount + 1)) ∧
      (spawnFires s = true →
        spawnedObstacles r s = s.obstacles ++ [{ x := 800, type := chooseType r }] ∧
        (step r s).lastObstacleFrame = (s.frameCount : ℤ) + 1) ∧
      (spawnFires s = false →
        spawnedObstacles r s = s.obstacles ∧
        (step r s).lastObstacleFrame = s.lastObstacleFrame)) := by
  refine ⟨chooseType_partition, ?_⟩
  intro r s h
  refine ⟨by simp [spawnFires], ?_, ?_⟩
  · intro hf
    constructor
    · unfold spawnedObstacles
      rw [if_pos hf]
    · rw [step_lastObstacleFrame r s h, if_pos hf]
  · intro hf
    have hnf : ¬ (spawnFires s = true) := by rw [hf]; simp
    constructor
    · unfold spawnedObstacles
      rw [if_neg hnf]
    · rw [step_lastObstacleFrame r s h, if_neg hnf]

/-- Claim C8 witness: the lowest band maps to rock. -/
theorem claim_C8_witness : chooseType 0.2 = ObstacleType.rock :=
  ((claim_C8.1 0.2 (by norm_num) (by norm_num)).1).mpr (by norm_num)

/-- Claim C9 (amended): an absent or empty stored value leaves the
default zero high score; a value with a parseable integer prefix loads
that integer; but a stored value with no parseable integer prefix loads
as NaN — it is not replaced by the zero default (no error is surfaced in
any case: `loadHighScore` is total). -/
theorem claim_C9 :
    loadHighScore none = some 0 ∧
    loadHighScore (some ("")) = some 0 ∧
    loadHighScore (some ("123")) = some 123 ∧
    loadHighScore (some (" -7abc")) = some (-7) ∧
    loadHighScore (some ("oops")) = none ∧
    (∀ str : String, str ≠ "" → loadHighScore (some str) = parseIntJS str) := by
  refine ⟨rfl, rfl, by decide, by decide, rfl, ?_⟩
  intro str h
  show (if str = "" then some 0 else parseIntJS str) = parseIntJS str
  rw [if_neg h]

/-- Claim C9 witness: the non-empty case defers to `parseInt`. -/
theorem claim_C9_witness : loadHighScore (some ("7")) = parseIntJS ("7") :=
  claim_C9.2.2.2.2.2 ("7") (by decide)

/-- Claim C9 counterexample: a corrupt stored value ("oops") is loaded
as NaN, not as the claimed zero default. -/
theorem claim_C9_cex :
    loadHighScore (some ("oops")) = none ∧ (none : Option ℤ) ≠ some 0 :=
  ⟨rfl, by simp⟩

/-- Claim C10: during an active run a jump request is a no-op unless the
player is not ducking and grounded, in which case it sets the velocity
to the fixed impulse 13 and changes nothing else. -/
theorem claim_C10 : ∀ s : GameState, s.gameStarted = true → s.gameOver = false →
    ((s.isDucking = false ∧ s.playerY = 0) → jump s = { s with velocity := 13 }) ∧
    (s.isDucking = true → jump s = s) ∧
    (s.playerY ≠ 0 → s.isDucking = false → jump s = s) := by
  intro s h1 h2
  unfold jump
  rw [h1, h2]
  refine ⟨?_, ?_, ?_⟩
  · rintro ⟨hd, hy⟩
    simp [hd, hy]
  · intro hd
    simp [hd]
  · intro hy hd
    simp [hd, hy]

/-- Claim C10 witness: a ducking player's jump request is ignored. -/
theorem claim_C10_witness : jump duckRun0 = duckRun0 :=
  (claim_C10 duckRun0 rfl rfl).2.1 rfl
